import Mathlib

/-!
# Customer Feedback Insights Engine — verification development

A shallow embedding in Lean 4 of the review-analytics core of `src/app.py`
(the FastAPI "Customer Feedback Insights API"), together with theorems that
settle the specification claims about it.

Modelling conventions:
* Python `float` arithmetic is modelled with `ℚ`; Python's `round(x, 2)`
  (round-half-to-even) is `round2` below.
* The external polarity scorer (TextBlob) is an external collaborator: every
  definition that classifies text is parameterised by a scoring function
  `polarity_of : String → ℚ`.
* A raw review record (a Python dict) is the structure `Review`; an absent or
  `None` field is `Option.none`.  Python truthiness of a string field
  (`None`/`""` falsy) is `strTruthy`; truthiness of a numeric field
  (`None`/`0` falsy) is `ratTruthy`.
* Timestamps: `created_at : Option Int` stands for the result of
  `safe_review_datetime` — `some t` when the raw value parses to instant `t`,
  `none` when it is missing/unparsable.
-/

/-- Round a rational to the nearest integer, ties to even —
the behaviour of Python's built-in `round` on exactly-representable values. -/
def rhe (q : ℚ) : ℤ :=
  if Int.fract q < 1/2 then ⌊q⌋
  else if 1/2 < Int.fract q then ⌊q⌋ + 1
  else if ⌊q⌋ % 2 = 0 then ⌊q⌋ else ⌊q⌋ + 1

/-- Python's `round(x, 2)` on the rational model. -/
def round2 (q : ℚ) : ℚ := (rhe (q * 100) : ℚ) / 100

theorem abs_rhe_sub_le (q : ℚ) : |(rhe q : ℚ) - q| ≤ 1/2 := by
  have hq : q - (⌊q⌋ : ℚ) = Int.fract q := Int.self_sub_floor q
  have h0 : (0:ℚ) ≤ Int.fract q := Int.fract_nonneg q
  have h1 : Int.fract q < 1 := Int.fract_lt_one q
  unfold rhe
  split
  · rename_i h
    rw [abs_sub_le_iff]
    constructor
    · linarith [hq]
    · linarith [hq]
  · rename_i h
    push_neg at h
    split
    · rename_i h2
      push_cast
      rw [abs_sub_le_iff]
      constructor
      · push_cast at *
        linarith [hq]
      · push_cast at *
        linarith [hq]
    · rename_i h2
      push_neg at h2
      have hfr : Int.fract q = 1/2 := le_antisymm h2 h
      split
      · rw [abs_sub_le_iff]
        constructor
        · linarith [hq, hfr]
        · linarith [hq, hfr]
      · push_cast
        rw [abs_sub_le_iff]
        constructor
        · push_cast at *
          linarith [hq, hfr]
        · push_cast at *
          linarith [hq, hfr]

/-- A raw review record, as handed back by the review provider.
`product_nested_handle` stands for Python's `r.get("product", {}).get("handle")`. -/
structure Review where
  product_handle : Option String
  handle : Option String
  product_nested_handle : Option String
  product_title : Option String
  body : Option String
  rating : Option ℚ
  created_at : Option Int
deriving DecidableEq

/-- Python truthiness of an optional string (`None` and `""` are falsy). -/
def strTruthy : Option String → Bool
  | none => false
  | some s => s ≠ ""

/-- Python truthiness of an optional number (`None` and `0` are falsy). -/
def ratTruthy : Option ℚ → Bool
  | none => false
  | some q => q ≠ 0

/-- Python's `a or b` on optional strings: `b` when `a` is falsy, else `a`. -/
def pyOrStr (a b : Option String) : Option String := if strTruthy a then a else b

/-- `resolve_product_handle` (src/app.py:58): `r.get("product_handle") or
r.get("handle") or r.get("product", {}).get("handle") or r.get("product_title")`. -/
def resolve_product_handle (r : Review) : Option String :=
  pyOrStr r.product_handle (pyOrStr r.handle
    (pyOrStr r.product_nested_handle r.product_title))

/-- `analyze_sentiment` (src/app.py:66): thresholds the raw polarity. -/
def analyze_sentiment (polarity_of : String → ℚ) (text : String) : String :=
  let polarity := polarity_of text
  if polarity > 1/10 then "Positive"
  else if polarity < -(1/10) then "Negative"
  else "Neutral"

/-- `sentiment_score` (src/app.py:74): the polarity rounded to 2 decimals. -/
def sentiment_score (polarity_of : String → ℚ) (text : String) : ℚ :=
  round2 (polarity_of text)

/-- The emotion vector of one review. -/
structure Emotions where
  joy : ℕ
  anger : ℕ
  sadness : ℕ
  surprise : ℕ
  disgust : ℕ
deriving DecidableEq

/-- `detect_emotions` (src/app.py:77): thresholds the ROUNDED score
`sentiment_score`, not the raw polarity. -/
def detect_emotions (polarity_of : String → ℚ) (text : String) : Emotions :=
  let score := sentiment_score polarity_of text
  { joy := if score > 1/10 then 1 else 0
    anger := if score < -(1/10) then 1 else 0
    sadness := if score < -(1/10) then 1 else 0
    surprise := 0
    disgust := 0 }

/-- `sentiment_percentages` (src/app.py:87) over the list of sentiment labels
of the summarized rows: each share of the total, rounded to 2 decimals. -/
def sentiment_percentages (sentiments : List String) : ℚ × ℚ × ℚ :=
  let total := sentiments.length
  if total = 0 then (0, 0, 0)
  else
    (round2 ((sentiments.countP (· = "Positive") : ℚ) / total * 100),
     round2 ((sentiments.countP (· = "Negative") : ℚ) / total * 100),
     round2 ((sentiments.countP (· = "Neutral") : ℚ) / total * 100))

/-- The row filter of `summarize_reviews` (src/app.py:192-196):
`if not text or rating is None: continue` keeps a review only when the body is
present and non-empty AND the rating is present; the kept row is `(body, rating)`. -/
def keptRow (r : Review) : Option (String × ℚ) :=
  match r.body, r.rating with
  | some b, some q => if b = "" then none else some (b, q)
  | some _, none => none
  | none, _ => none

/-- The aggregate returned by `summarize_reviews`. -/
structure Summary where
  total_reviews : ℕ
  average_rating : ℚ
  positive_pct : ℚ
  negative_pct : ℚ
  neutral_pct : ℚ
  emotion_summary : Emotions
deriving DecidableEq

def addEmotions (a b : Emotions) : Emotions :=
  ⟨a.joy + b.joy, a.anger + b.anger, a.sadness + b.sadness,
   a.surprise + b.surprise, a.disgust + b.disgust⟩

/-- `summarize_reviews` (src/app.py:188): filter rows, classify each kept body,
accumulate emotions, average the kept ratings (0 on an empty frame) and take
sentiment percentages. -/
def summarize_reviews (polarity_of : String → ℚ) (product_reviews : List Review) :
    Summary :=
  let rows := product_reviews.filterMap keptRow
  let sentiments := rows.map (fun p => analyze_sentiment polarity_of p.1)
  let emotion_summary := rows.foldl
    (fun acc p => addEmotions acc (detect_emotions polarity_of p.1)) ⟨0,0,0,0,0⟩
  let avg_rating :=
    if rows.length = 0 then 0
    else round2 ((rows.map Prod.snd).sum / rows.length)
  let pcts := sentiment_percentages sentiments
  { total_reviews := rows.length
    average_rating := avg_rating
    positive_pct := pcts.1
    negative_pct := pcts.2.1
    neutral_pct := pcts.2.2
    emotion_summary := emotion_summary }

/-!
## Theme extraction (src/app.py:100-127)
A keyword vocabulary is an ordered association list (a Python dict preserves
insertion order); the running tally `themes` is likewise an ordered
association list updated in place by `bumpTheme`.
-/

/-- Lower-case a string character-wise (Python `str.lower` on the texts used here). -/
def strLower (s : String) : String := ⟨s.data.map Char.toLower⟩

/-- Python's `k in text` substring test. -/
def strContains (hay needle : String) : Bool := decide (needle.data <:+: hay.data)

/-- `COMPLAINT_KEYWORDS` (src/app.py:100), in declaration order. -/
def COMPLAINT_KEYWORDS : List (String × List String) :=
  [("quality", ["quality", "broken", "damaged", "defective"]),
   ("delivery", ["late", "delay", "shipping"]),
   ("price", ["price", "expensive", "cost"]),
   ("size_fit", ["size", "fit", "small", "large"]),
   ("support", ["support", "customer service"])]

/-- `PRAISE_KEYWORDS` (src/app.py:111), in declaration order. -/
def PRAISE_KEYWORDS : List (String × List String) :=
  [("quality", ["quality", "durable", "well made", "excellent"]),
   ("delivery", ["fast", "quick", "on time"]),
   ("price", ["cheap", "value", "worth", "affordable"]),
   ("fit", ["perfect", "fit", "comfortable"]),
   ("support", ["support", "helpful", "responsive"])]

/-- The lower-cased text of a review, `r.get("body", "").lower()`. -/
def themeText (r : Review) : String := strLower (r.body.getD "")

/-- Whether any keyword of a theme occurs in the text. -/
def themeHit (keywords : List String) (r : Review) : Bool :=
  keywords.any (fun k => strContains (themeText r) k)

/-- `themes[theme] = themes.get(theme, 0) + 1` on an insertion-ordered dict:
increment the first entry with this key, else append a fresh entry. -/
def bumpTheme : List (String × ℕ) → String → List (String × ℕ)
  | [], t => [(t, 1)]
  | (a, n) :: rest, t =>
    if a = t then (a, n + 1) :: rest else (a, n) :: bumpTheme rest t

/-- The inner loop of `extract_themes`: one review visits every vocabulary
entry in declaration order. -/
def visitReview (kmap : List (String × List String)) (acc : List (String × ℕ))
    (r : Review) : List (String × ℕ) :=
  kmap.foldl (fun a p => if themeHit p.2 r then bumpTheme a p.1 else a) acc

/-- The tally dict built by the `extract_themes` double loop, before sorting. -/
def themeTally (reviews : List Review) (kmap : List (String × List String)) :
    List (String × ℕ) :=
  reviews.foldl (visitReview kmap) []

/-- `extract_themes` (src/app.py:120): tally then
`sorted(themes.items(), key=lambda x: x[1], reverse=True)` — a stable sort
descending by count (Python's stable sort is modelled by the stable
`insertionSort`; ties keep tally-insertion order either way). -/
def extract_themes (reviews : List Review) (kmap : List (String × List String)) :
    List (String × ℕ) :=
  List.insertionSort (fun a b => b.2 ≤ a.2) (themeTally reviews kmap)

/-- Total count recorded for a theme name in an ordered tally. -/
def tallyCount (l : List (String × ℕ)) (t : String) : ℕ :=
  (l.map (fun p => if p.1 = t then p.2 else 0)).sum

/-!
## Tenant cache (src/app.py:40-47, 170-176)
`get_reviews_cached` under the lock: the cache state is the pair stored in
`review_cache`; the upstream fetch is an explicit `Except` argument standing
for the outcome of `fetch_all_reviews()` (`.error` = a `requests` exception
raised by `raise_for_status`, which Python propagates out of the function).
-/

/-- The mutable `review_cache` dict. -/
structure CacheState where
  reviews : List Review
  last_updated : ℚ
deriving DecidableEq

/-- `REVIEW_CACHE_TTL` (src/app.py:41). -/
def REVIEW_CACHE_TTL : ℚ := 300

/-- `get_reviews_cached` (src/app.py:170): refresh when the cached list is
empty or the TTL elapsed; a fetch error escapes (there is no handler), a
successful fetch replaces the entry; otherwise the cached list is returned. -/
def get_reviews_cached (fetch : Except String (List Review)) (now : ℚ)
    (st : CacheState) : Except String (CacheState × List Review) :=
  if st.reviews = [] ∨ now - st.last_updated > REVIEW_CACHE_TTL then
    match fetch with
    | .error e => .error e
    | .ok rs => .ok (⟨rs, now⟩, rs)
  else
    .ok (st, st.reviews)

/-!
## Trends (src/app.py:301-370), per-product analysis
After cleaning, each product's reviews are split at `cutoff_recent`; there is
no fallback: either window being empty yields the insufficient-data entry.
-/

/-- A cleaned trends review: parsed timestamp and rating. -/
structure TReview where
  dt : Int
  rating : ℚ
deriving DecidableEq

/-- One product's entry in the `/ratings/trends` response. -/
inductive TrendResult
  | insufficient_data
  | trend (current_avg prev_avg delta : ℚ) (label risk_level : String)
deriving DecidableEq

/-- The per-product body of the `ratings_trends` loop (src/app.py:329-363). -/
def trend_for_product (cutoff_recent : Int) (product_reviews : List TReview) :
    TrendResult :=
  let recent := product_reviews.filter (fun r => cutoff_recent ≤ r.dt)
  let previous := product_reviews.filter (fun r => r.dt < cutoff_recent)
  if recent.isEmpty ∨ previous.isEmpty then .insufficient_data
  else
    let recent_avg := round2 ((recent.map TReview.rating).sum / recent.length)
    let prev_avg := round2 ((previous.map TReview.rating).sum / previous.length)
    let delta := round2 (recent_avg - prev_avg)
    let tr :=
      if delta > 1/5 then "improving"
      else if delta < -(1/5) then "declining"
      else "stable"
    .trend recent_avg prev_avg delta tr (if tr = "declining" then "warning" else "ok")

/-!
## Alerts (src/app.py:554-648)
Cleaning resolves the handle with `resolve_product_handle` and drops records
with an unparsable timestamp, falsy handle, falsy rating or falsy body.  The
per-product window selection applies the last-5/first-5 fallbacks in INPUT
order and silently `continue`s when a side is still empty.
-/

/-- The cleaning filter of `ratings_alerts` (src/app.py:566-581): keep a
record only when the timestamp parses, the resolved handle is truthy, the
rating is truthy (`not r.get("rating")` drops 0) and the body is truthy.
The kept element is `(parsed timestamp, record)`. -/
def alerts_clean (rs : List Review) : List (Int × Review) :=
  rs.filterMap (fun r =>
    match r.created_at with
    | none => none
    | some dt =>
      if strTruthy (resolve_product_handle r) ∧ ratTruthy r.rating = true ∧
          strTruthy r.body = true then
        some (dt, r)
      else none)

/-- The window selection of the `ratings_alerts` loop (src/app.py:591-601):
partition at the cutoff, fall back to `product_reviews[-5:]` / `[:5]`, and
return `none` (Python `continue`) when a side is still empty. -/
def alerts_windows (cutoff_recent : Int) (product_reviews : List (Int × Review)) :
    Option (List (Int × Review) × List (Int × Review)) :=
  let recent0 := product_reviews.filter (fun r => cutoff_recent ≤ r.1)
  let historical0 := product_reviews.filter (fun r => r.1 < cutoff_recent)
  let recent :=
    if recent0.isEmpty then product_reviews.drop (product_reviews.length - 5)
    else recent0
  let historical :=
    if historical0.isEmpty then product_reviews.take 5 else historical0
  if recent.isEmpty ∨ historical.isEmpty then none else some (recent, historical)

/-!
## At-risk (src/app.py:267-296)
The endpoint groups reviews per handle, summarizes each group, and reports a
product as at risk exactly when `summary["negative_pct"] >= threshold * 100`.
No weighted score appears anywhere in the source.
-/

/-- One entry of the `at_risk_products` list. -/
structure AtRiskEntry where
  product_handle : String
  average_rating : ℚ
  negative_pct : ℚ
  top_complaints : List String
deriving DecidableEq

/-- The loop of `ratings_at_risk` (src/app.py:280-289) over the grouped
per-product review lists, in grouping order. -/
def ratings_at_risk_products (polarity_of : String → ℚ) (threshold : ℚ)
    (grouped : List (String × List Review)) : List AtRiskEntry :=
  grouped.foldr
    (fun g acc =>
      let summary := summarize_reviews polarity_of g.2
      if summary.negative_pct ≥ threshold * 100 then
        { product_handle := g.1
          average_rating := summary.average_rating
          negative_pct := summary.negative_pct
          top_complaints :=
            ((extract_themes g.2 COMPLAINT_KEYWORDS).map Prod.fst).take 3 } :: acc
      else acc)
    []

/-- Modelled from the spec: the "weighted risk score"
`round((1 - avg_rating/5) * 0.7 + (negative_pct/100) * 0.3, 2)` described in
§4.6 of the specification.  No function of `src/app.py` computes this value;
it is defined here only to compare the spec's claimed classification rule
with the one the code implements. -/
def weighted_risk_score (avg_rating negative_pct : ℚ) : ℚ :=
  round2 ((1 - avg_rating / 5) * (7/10) + (negative_pct / 100) * (3/10))

/-!
## Actionable insights (src/app.py:376-463)
Cleaning substitutes defaults instead of dropping records; the per-product
loop REASSIGNS the `priority` variable that also holds the caller's query
parameter, and the post-loop filter reads that variable.
-/

/-- A cleaned actions record (src/app.py:393-404): timestamp falls back to
`now`, handle to `"unknown_product"` (from the `product_handle` field only),
rating to `0`, body to `""`. -/
structure CReview where
  dt : Int
  product_handle : String
  rating : ℚ
  body : String
deriving DecidableEq

/-- The cleaning step of `ratings_actions` for one record. -/
def actions_clean (now : Int) (r : Review) : CReview :=
  { dt := r.created_at.getD now
    product_handle :=
      match r.product_handle with
      | some s => if s = "" then "unknown_product" else s
      | none => "unknown_product"
    rating := r.rating.getD 0
    body := r.body.getD "" }

/-- Rebuild the record `summarize_reviews` receives from a cleaned actions
record (the cleaned dict carries the substituted fields). -/
def review_of_c (c : CReview) : Review :=
  { product_handle := some c.product_handle
    handle := none
    product_nested_handle := none
    product_title := none
    body := some c.body
    rating := some c.rating
    created_at := some c.dt }

/-- One entry of the `/ratings/actions` response. -/
structure ActionEntry where
  product_handle : String
  average_rating : ℚ
  negative_pct : ℚ
  priority : String
  recommended_action : String
deriving DecidableEq

/-- The priority/action classification of the `ratings_actions` loop
(src/app.py:432-441), applied to the recent-window summary. -/
def action_priority (summary : Summary) : String × String :=
  if summary.average_rating ≤ 3 ∨ summary.negative_pct ≥ 40 then
    ("high", "Investigate recurring customer complaints immediately")
  else if summary.average_rating < 4 ∨ summary.negative_pct ≥ 25 then
    ("medium", "Monitor feedback and address emerging issues")
  else
    ("low", "No immediate action needed")

/-- The recent window of the `ratings_actions` loop for one handle
(src/app.py:416-422): filter at the cutoff, falling back to the last 5
records in input order. -/
def actions_recent (cutoff_recent : Int) (cleaned : List CReview)
    (handle : String) : List CReview :=
  let product_reviews := cleaned.filter (fun c => c.product_handle = handle)
  let recent := product_reviews.filter (fun c => cutoff_recent ≤ c.dt)
  if recent.isEmpty then product_reviews.drop (product_reviews.length - 5)
  else recent

/-- One iteration of the `ratings_actions` loop (src/app.py:415-449): the
state is `(results, priority)` — the SAME `priority` variable that holds the
caller's query parameter is reassigned by every productive iteration. -/
def actions_step (polarity_of : String → ℚ) (cutoff_recent : Int)
    (cleaned : List CReview) (st : List ActionEntry × Option String)
    (handle : String) : List ActionEntry × Option String :=
  let recent := actions_recent cutoff_recent cleaned handle
  if recent.isEmpty then st
  else
    let summary := summarize_reviews polarity_of (recent.map review_of_c)
    let pa := action_priority summary
    (st.1 ++ [{ product_handle := handle
                average_rating := summary.average_rating
                negative_pct := summary.negative_pct
                priority := pa.1
                recommended_action := pa.2 }],
     some pa.1)

/-- The priority computed for one handle, when its recent window is nonempty. -/
def computed_priority (polarity_of : String → ℚ) (cutoff_recent : Int)
    (cleaned : List CReview) (handle : String) : Option String :=
  let recent := actions_recent cutoff_recent cleaned handle
  if recent.isEmpty then none
  else some (action_priority (summarize_reviews polarity_of (recent.map review_of_c))).1

/-- `ratings_actions` after cleaning (src/app.py:413-456): run the loop over
the product handles (an explicit iteration order over Python's set), then
apply the post-loop `priority` filter — which reads the reassigned loop
variable, not the caller's parameter. -/
def actions_results (polarity_of : String → ℚ) (cutoff_recent : Int)
    (cleaned : List CReview) (handles : List String)
    (priority_param : Option String) : List ActionEntry :=
  let looped := handles.foldl (actions_step polarity_of cutoff_recent cleaned)
    ([], priority_param)
  match looped.2 with
  | none => looped.1
  | some p => if p = "" then looped.1
              else looped.1.filter (fun e => e.priority = strLower p)

/-!
## Claim C4 — classifier thresholds and emotion vector
-/

theorem analyze_sentiment_cases (polarity_of : String → ℚ) (text : String) :
    analyze_sentiment polarity_of text = "Positive" ∨
    analyze_sentiment polarity_of text = "Negative" ∨
    analyze_sentiment polarity_of text = "Neutral" := by
  simp only [analyze_sentiment]
  split
  · left; rfl
  · split
    · right; left; rfl
    · right; right; rfl

/-- C4 (amended): the label is decided by the RAW polarity (`Positive` iff
`s > 0.1`, `Negative` iff `s < -0.1`, else `Neutral`), while the emotion
vector is decided by the ROUNDED score `round(s, 2)`: `joy = 1` iff
`round(s,2) > 0.1`, `anger = sadness = 1` iff `round(s,2) < -0.1`, and
`surprise = disgust = 0`.  Label and emotions are NOT functions of the same
score: they agree only up to the rounding of `s`. -/
theorem classifier_and_emotions_thresholds (polarity_of : String → ℚ)
    (text : String) :
    (analyze_sentiment polarity_of text = "Positive" ↔ polarity_of text > 1/10) ∧
    (analyze_sentiment polarity_of text = "Negative" ↔ polarity_of text < -(1/10)) ∧
    (analyze_sentiment polarity_of text = "Neutral" ↔
      ¬ polarity_of text > 1/10 ∧ ¬ polarity_of text < -(1/10)) ∧
    ((detect_emotions polarity_of text).joy
      = if round2 (polarity_of text) > 1/10 then 1 else 0) ∧
    ((detect_emotions polarity_of text).anger
      = if round2 (polarity_of text) < -(1/10) then 1 else 0) ∧
    (detect_emotions polarity_of text).sadness
      = (detect_emotions polarity_of text).anger ∧
    (detect_emotions polarity_of text).surprise = 0 ∧
    (detect_emotions polarity_of text).disgust = 0 := by
  refine ⟨?_, ?_, ?_, rfl, rfl, rfl, rfl, rfl⟩
  · show (if polarity_of text > 1/10 then "Positive"
      else if polarity_of text < -(1/10) then "Negative" else "Neutral")
        = "Positive" ↔ polarity_of text > 1/10
    split_ifs with h1 h2
    · simpa using h1
    · simpa using h1
    · simpa using h1
  · show (if polarity_of text > 1/10 then "Positive"
      else if polarity_of text < -(1/10) then "Negative" else "Neutral")
        = "Negative" ↔ polarity_of text < -(1/10)
    split_ifs with h1 h2
    · constructor
      · intro hlit
        exact absurd hlit (by decide)
      · intro hneg
        exact absurd hneg (by linarith)
    · simpa using h2
    · simpa using h2
  · show (if polarity_of text > 1/10 then "Positive"
      else if polarity_of text < -(1/10) then "Negative" else "Neutral")
        = "Neutral" ↔ ¬ polarity_of text > 1/10 ∧ ¬ polarity_of text < -(1/10)
    split_ifs with h1 h2
    · constructor
      · intro hlit
        exact absurd hlit (by decide)
      · intro hc
        exact absurd h1 hc.1
    · constructor
      · intro hlit
        exact absurd hlit (by decide)
      · intro hc
        exact absurd h2 hc.2
    · simpa using And.intro h1 h2

/-- C4 counterexample: with polarity `s = 0.101`, the label is `Positive`
(so `s > 0.1`), yet `joy = 0` — refuting the claim that `joy = 1` iff
`s > 0.1` for the same score `s` the label uses.  The emotions threshold the
rounded score `round(0.101, 2) = 0.10`, which is not `> 0.1`. -/
theorem classifier_emotions_same_score_counterexample :
    analyze_sentiment (fun _ => 101/1000) "ok" = "Positive" ∧
    ((101:ℚ)/1000) > 1/10 ∧
    (detect_emotions (fun _ => 101/1000) "ok").joy = 0 := by
  refine ⟨?_, by norm_num, ?_⟩
  · rw [analyze_sentiment]
    norm_num
  · rw [detect_emotions]
    have h : sentiment_score (fun _ => 101/1000) "ok" = 1/10 := by
      rw [sentiment_score]
      norm_num [round2, rhe, Int.fract]
    rw [h]
    norm_num

/-!
## Claim C3 — sentiment percentages sum to 100 (±0.01)
-/

theorem countP_three_labels (l : List String)
    (h : ∀ x ∈ l, x = "Positive" ∨ x = "Negative" ∨ x = "Neutral") :
    l.countP (· = "Positive") + l.countP (· = "Negative") +
      l.countP (· = "Neutral") = l.length := by
  induction l with
  | nil => rfl
  | cons a l ih =>
    have ha := h a (List.mem_cons_self a l)
    have ih2 := ih (fun x hx => h x (List.mem_cons_of_mem a hx))
    simp only [List.countP_cons, List.length_cons]
    rcases ha with ha | ha | ha <;> subst ha <;> simp <;> omega

theorem pct_sum_bound (p n u t : ℕ) (hsum : p + n + u = t) (ht : 0 < t) :
    |round2 ((p : ℚ) / t * 100) + round2 ((n : ℚ) / t * 100) +
      round2 ((u : ℚ) / t * 100) - 100| ≤ 1/100 := by
  have htq : (t : ℚ) ≠ 0 := Nat.cast_ne_zero.mpr (by omega)
  set X := (p : ℚ) / t * 100 * 100 with hX
  set Y := (n : ℚ) / t * 100 * 100 with hY
  set Z := (u : ℚ) / t * 100 * 100 with hZ
  have hXYZ : X + Y + Z = 10000 := by
    rw [hX, hY, hZ]
    field_simp
    push_cast [← hsum]
    ring
  have hA := abs_rhe_sub_le X
  have hB := abs_rhe_sub_le Y
  have hC := abs_rhe_sub_le Z
  set m : ℤ := rhe X + rhe Y + rhe Z - 10000 with hm
  have hmq : |(m : ℚ)| ≤ 3/2 := by
    have : (m : ℚ) = ((rhe X : ℚ) - X) + ((rhe Y : ℚ) - Y) + ((rhe Z : ℚ) - Z) := by
      push_cast [hm]
      linarith [hXYZ]
    rw [this]
    calc |((rhe X : ℚ) - X) + ((rhe Y : ℚ) - Y) + ((rhe Z : ℚ) - Z)|
        ≤ |((rhe X : ℚ) - X) + ((rhe Y : ℚ) - Y)| + |(rhe Z : ℚ) - Z| :=
          abs_add _ _
      _ ≤ |(rhe X : ℚ) - X| + |(rhe Y : ℚ) - Y| + |(rhe Z : ℚ) - Z| := by
          have := abs_add ((rhe X : ℚ) - X) ((rhe Y : ℚ) - Y)
          linarith
      _ ≤ 3/2 := by linarith
  have hmint : |m| ≤ 1 := by
    by_contra hcon
    push_neg at hcon
    have h2 : (2 : ℤ) ≤ |m| := hcon
    have : (2 : ℚ) ≤ |(m : ℚ)| := by
      calc (2 : ℚ) = ((2 : ℤ) : ℚ) := by norm_num
        _ ≤ ((|m| : ℤ) : ℚ) := by exact_mod_cast h2
        _ = |(m : ℚ)| := by push_cast; rfl
    linarith
  have hgoal : round2 ((p : ℚ) / t * 100) + round2 ((n : ℚ) / t * 100) +
      round2 ((u : ℚ) / t * 100) - 100 = (m : ℚ) / 100 := by
    rw [round2, round2, round2, ← hX, ← hY, ← hZ]
    push_cast [hm]
    ring
  rw [hgoal, abs_div]
  have : |(100 : ℚ)| = 100 := by norm_num
  rw [this]
  have : |(m : ℚ)| ≤ 1 := by
    calc |(m : ℚ)| = ((|m| : ℤ) : ℚ) := by push_cast; rfl
      _ ≤ ((1 : ℤ) : ℚ) := by exact_mod_cast hmint
      _ = 1 := by norm_num
  linarith

theorem sentiment_percentages_spec (l : List String)
    (h : ∀ x ∈ l, x = "Positive" ∨ x = "Negative" ∨ x = "Neutral") :
    (l.length ≠ 0 →
      |(sentiment_percentages l).1 + (sentiment_percentages l).2.1 +
        (sentiment_percentages l).2.2 - 100| ≤ 1/100) ∧
    (l.length = 0 → sentiment_percentages l = (0, 0, 0)) := by
  constructor
  · intro hne
    have hcount := countP_three_labels l h
    have hpos : 0 < l.length := Nat.pos_of_ne_zero hne
    simp only [sentiment_percentages, if_neg hne]
    exact pct_sum_bound _ _ _ _ hcount hpos
  · intro h0
    simp [sentiment_percentages, h0]

/-- C3 (confirmed): in every `summarize_reviews` output, the three sentiment
percentages sum to 100 within ±0.01 whenever `total_reviews > 0`, and are all
`0` when `total_reviews = 0`. -/
theorem summary_percentages_sum (polarity_of : String → ℚ) (rs : List Review) :
    ((summarize_reviews polarity_of rs).total_reviews ≠ 0 →
      |(summarize_reviews polarity_of rs).positive_pct +
        (summarize_reviews polarity_of rs).negative_pct +
        (summarize_reviews polarity_of rs).neutral_pct - 100| ≤ 1/100) ∧
    ((summarize_reviews polarity_of rs).total_reviews = 0 →
      (summarize_reviews polarity_of rs).positive_pct = 0 ∧
      (summarize_reviews polarity_of rs).negative_pct = 0 ∧
      (summarize_reviews polarity_of rs).neutral_pct = 0) := by
  have hmem : ∀ x ∈ (rs.filterMap keptRow).map
      (fun p => analyze_sentiment polarity_of p.1),
      x = "Positive" ∨ x = "Negative" ∨ x = "Neutral" := by
    intro x hx
    rcases List.mem_map.mp hx with ⟨p, _, hp⟩
    rw [← hp]
    exact analyze_sentiment_cases polarity_of p.1
  have hspec := sentiment_percentages_spec _ hmem
  have hlen : ((rs.filterMap keptRow).map
      (fun p => analyze_sentiment polarity_of p.1)).length
      = (rs.filterMap keptRow).length := List.length_map _ _
  constructor
  · intro hne
    have hne2 : ((rs.filterMap keptRow).map
        (fun p => analyze_sentiment polarity_of p.1)).length ≠ 0 := by
      rw [hlen]
      exact hne
    exact hspec.1 hne2
  · intro h0
    have h02 : ((rs.filterMap keptRow).map
        (fun p => analyze_sentiment polarity_of p.1)).length = 0 := by
      rw [hlen]
      exact h0
    have := hspec.2 h02
    refine ⟨?_, ?_, ?_⟩
    · show (sentiment_percentages _).1 = 0
      rw [this]
    · show (sentiment_percentages _).2.1 = 0
      rw [this]
    · show (sentiment_percentages _).2.2 = 0
      rw [this]

/-- C3 witness: a concrete non-empty summary satisfying the invariant. -/
theorem summary_percentages_sum_witness :
    (summarize_reviews (fun _ => -1)
      [⟨some "p", none, none, none, some "bad", some 5, none⟩]).total_reviews ≠ 0 ∧
    |(summarize_reviews (fun _ => -1)
        [⟨some "p", none, none, none, some "bad", some 5, none⟩]).positive_pct +
      (summarize_reviews (fun _ => -1)
        [⟨some "p", none, none, none, some "bad", some 5, none⟩]).negative_pct +
      (summarize_reviews (fun _ => -1)
        [⟨some "p", none, none, none, some "bad", some 5, none⟩]).neutral_pct
      - 100| ≤ 1/100 := by
  have htot : (summarize_reviews (fun _ => -1)
      [⟨some "p", none, none, none, some "bad", some 5, none⟩]).total_reviews ≠ 0 := by
    show (List.filterMap keptRow _).length ≠ 0
    rw [List.filterMap]
    simp [keptRow]
  exact ⟨htot, (summary_percentages_sum (fun _ => -1)
    [⟨some "p", none, none, none, some "bad", some 5, none⟩]).1 htot⟩

/-!
## Claim C6 — which reviews the summarizer retains, and the average
-/

theorem keptRow_isSome (r : Review) :
    (keptRow r).isSome = (decide (r.body.getD "" ≠ "") && r.rating.isSome) := by
  rcases r with ⟨_, _, _, _, b, q, _⟩
  cases b with
  | none => rfl
  | some s =>
    cases q with
    | none => simp [keptRow]
    | some v =>
      by_cases hs : s = ""
      · simp [keptRow, hs]
      · simp [keptRow, hs]

theorem length_filterMap_keptRow (rs : List Review) :
    (rs.filterMap keptRow).length = rs.countP (fun r => (keptRow r).isSome) := by
  induction rs with
  | nil => rfl
  | cons a l ih =>
    rw [List.filterMap_cons, List.countP_cons]
    cases h : keptRow a
    · simp [h, ih]
    · simp [h, ih]

/-- C6 (amended): `summarize_reviews` retains exactly the reviews with a
present non-empty `body` AND a present `rating` (a review missing either one
is excluded, not only reviews missing both); `average_rating` is the mean of
the retained ratings rounded to 2 decimals, and `0` when nothing is retained. -/
theorem summarize_retention_and_average (polarity_of : String → ℚ)
    (rs : List Review) :
    (∀ r : Review, (keptRow r).isSome
      = (decide (r.body.getD "" ≠ "") && r.rating.isSome)) ∧
    (summarize_reviews polarity_of rs).total_reviews
      = rs.countP (fun r => decide (r.body.getD "" ≠ "") && r.rating.isSome) ∧
    ((summarize_reviews polarity_of rs).total_reviews = 0 →
      (summarize_reviews polarity_of rs).average_rating = 0) ∧
    ((summarize_reviews polarity_of rs).total_reviews ≠ 0 →
      (summarize_reviews polarity_of rs).average_rating
        = round2 (((rs.filterMap keptRow).map Prod.snd).sum
            / (rs.filterMap keptRow).length)) := by
  refine ⟨keptRow_isSome, ?_, ?_, ?_⟩
  · show (rs.filterMap keptRow).length = _
    rw [length_filterMap_keptRow]
    exact List.countP_congr (fun r _ => by rw [keptRow_isSome])
  · intro h0
    have h0len : (rs.filterMap keptRow).length = 0 := h0
    show (if (rs.filterMap keptRow).length = 0 then (0:ℚ)
      else round2 (((rs.filterMap keptRow).map Prod.snd).sum
        / (rs.filterMap keptRow).length)) = 0
    rw [if_pos h0len]
  · intro hne
    have hnelen : (rs.filterMap keptRow).length ≠ 0 := hne
    show (if (rs.filterMap keptRow).length = 0 then (0:ℚ)
      else round2 (((rs.filterMap keptRow).map Prod.snd).sum
        / (rs.filterMap keptRow).length)) = _
    rw [if_neg hnelen]

/-- C6 witness: one retained review (body and rating present) gives
`total_reviews = 1` and `average_rating = round2(5/1)`. -/
theorem summarize_retention_and_average_witness :
    (summarize_reviews (fun _ => -1)
      [⟨some "p", none, none, none, some "bad", some 5, none⟩]).total_reviews ≠ 0 ∧
    (summarize_reviews (fun _ => -1)
      [⟨some "p", none, none, none, some "bad", some 5, none⟩]).average_rating
      = round2 (((List.filterMap keptRow
          [⟨some "p", none, none, none, some "bad", some 5, none⟩]).map Prod.snd).sum
          / ((List.filterMap keptRow
          [⟨some "p", none, none, none, some "bad", some 5, none⟩]).length)) := by
  have htot : (summarize_reviews (fun _ => -1)
      [⟨some "p", none, none, none, some "bad", some 5, none⟩]).total_reviews ≠ 0 := by
    show (List.filterMap keptRow _).length ≠ 0
    rw [List.filterMap]
    simp [keptRow]
  refine ⟨htot, ?_⟩
  exact (summarize_retention_and_average (fun _ => -1)
    [⟨some "p", none, none, none, some "bad", some 5, none⟩]).2.2.2 htot

/-- C6 counterexample: a review with a body but no rating, and a review with a
rating but no body, are BOTH excluded — `total_reviews = 0`, refuting the
claim that only reviews lacking both fields are excluded. -/
theorem summarize_retention_counterexample :
    (summarize_reviews (fun _ => 0)
      [⟨some "p", none, none, none, some "great", none, none⟩,
       ⟨some "p", none, none, none, none, some 4, none⟩]).total_reviews = 0 := by
  show (List.filterMap keptRow _).length = 0
  rw [List.filterMap]
  simp [keptRow]

/-!
## Claim C1 — what decides the at-risk classification
-/

theorem key_unique {α β : Type} (l : List (α × β))
    (h : (l.map Prod.fst).Nodup) {a : α} {b b' : β}
    (h1 : (a, b) ∈ l) (h2 : (a, b') ∈ l) : b = b' := by
  induction l with
  | nil => cases h1
  | cons g l ih =>
    rw [List.map_cons, List.nodup_cons] at h
    rcases List.mem_cons.mp h1 with he1 | hm1 <;>
      rcases List.mem_cons.mp h2 with he2 | hm2
    · exact congrArg Prod.snd (he1.trans he2.symm)
    · exfalso
      apply h.1
      rw [← he1]
      exact List.mem_map.mpr ⟨(a, b'), hm2, rfl⟩
    · exfalso
      apply h.1
      rw [← he2]
      exact List.mem_map.mpr ⟨(a, b), hm1, rfl⟩
    · exact ih h.2 hm1 hm2

theorem at_risk_map_fst (polarity_of : String → ℚ) (threshold : ℚ)
    (grouped : List (String × List Review)) :
    (ratings_at_risk_products polarity_of threshold grouped).map
        AtRiskEntry.product_handle
      = (grouped.filter (fun g =>
          (summarize_reviews polarity_of g.2).negative_pct ≥ threshold * 100)).map
          Prod.fst := by
  induction grouped with
  | nil => rfl
  | cons g l ih =>
    show (if (summarize_reviews polarity_of g.2).negative_pct ≥ threshold * 100
        then _ :: ratings_at_risk_products polarity_of threshold l
        else ratings_at_risk_products polarity_of threshold l).map
        AtRiskEntry.product_handle = _
    rw [List.filter_cons]
    by_cases hc : (summarize_reviews polarity_of g.2).negative_pct ≥ threshold * 100
    · rw [if_pos hc, if_pos (by exact decide_eq_true hc), List.map_cons, List.map_cons, ih]
    · rw [if_neg hc, if_neg (by simpa using hc), ih]

/-- C1 (amended): a product is reported at risk exactly when its summary's
`negative_pct ≥ threshold * 100`; the weighted risk score of the claim is not
what the code computes (no function of the source computes it), although the
formula itself does evaluate to `0.53` at `average_rating = 2.5`,
`negative_pct = 60` as the spec's example states. -/
theorem at_risk_decided_by_negative_pct (polarity_of : String → ℚ)
    (threshold : ℚ) (grouped : List (String × List Review))
    (hnd : (grouped.map Prod.fst).Nodup) (handle : String) (prs : List Review)
    (hmem : (handle, prs) ∈ grouped) :
    (handle ∈ (ratings_at_risk_products polarity_of threshold grouped).map
        AtRiskEntry.product_handle
      ↔ (summarize_reviews polarity_of prs).negative_pct ≥ threshold * 100) ∧
    weighted_risk_score (5/2) 60 = 53/100 := by
  constructor
  · rw [at_risk_map_fst]
    constructor
    · intro hin
      rcases List.mem_map.mp hin with ⟨g, hgf, hg1⟩
      have hgm := List.mem_filter.mp hgf
      have hpred : (summarize_reviews polarity_of g.2).negative_pct
          ≥ threshold * 100 := by
        have := hgm.2
        simpa using this
      have : g.2 = prs := by
        have hgpair : (handle, g.2) ∈ grouped := by
          have : g = (handle, g.2) := by
            rw [← hg1]
          rw [← this]
          exact hgm.1
        exact key_unique grouped hnd hgpair hmem
      rw [← this]
      exact hpred
    · intro hge
      refine List.mem_map.mpr ⟨(handle, prs), ?_, rfl⟩
      exact List.mem_filter.mpr ⟨hmem, by simpa using hge⟩
  · rw [weighted_risk_score]
    norm_num [round2, rhe, Int.fract]

/-- C1 witness: a concrete one-product grouping where the at-risk iff is
exercised (100% negative ≥ 50% threshold, so the product is listed). -/
theorem at_risk_decided_by_negative_pct_witness :
    ("shirt" ∈ (ratings_at_risk_products (fun _ => -1) (1/2)
        [("shirt", [⟨some "shirt", none, none, none, some "bad", some 5, none⟩])]).map
        AtRiskEntry.product_handle
      ↔ (summarize_reviews (fun _ => -1)
          [⟨some "shirt", none, none, none, some "bad", some 5, none⟩]).negative_pct
          ≥ 1/2 * 100) ∧
    weighted_risk_score (5/2) 60 = 53/100 :=
  at_risk_decided_by_negative_pct (fun _ => -1) (1/2)
    [("shirt", [⟨some "shirt", none, none, none, some "bad", some 5, none⟩])]
    (by decide) "shirt"
    [⟨some "shirt", none, none, none, some "bad", some 5, none⟩]
    (List.mem_singleton.mpr rfl)

/-- C1 counterexample: with threshold `0.9`, a product whose only review is
negative with rating 5 has `negative_pct = 100 ≥ 90`, so the code reports it
at risk — yet its weighted risk score is
`round((1 - 5/5)*0.7 + (100/100)*0.3, 2) = 0.3 < 0.9`, so by the claim it
would not be at risk.  The classification is therefore NOT decided by the
weighted risk score. -/
theorem at_risk_weighted_score_counterexample :
    (ratings_at_risk_products (fun _ => -1) (9/10)
        [("shirt", [⟨some "shirt", none, none, none, some "bad", some 5, none⟩])]).map
        AtRiskEntry.product_handle = ["shirt"] ∧
    (summarize_reviews (fun _ => -1)
      [⟨some "shirt", none, none, none, some "bad", some 5, none⟩]).average_rating
      = 5 ∧
    (summarize_reviews (fun _ => -1)
      [⟨some "shirt", none, none, none, some "bad", some 5, none⟩]).negative_pct
      = 100 ∧
    weighted_risk_score 5 100 = 3/10 ∧ ((3:ℚ)/10) < 9/10 := by
  have hrow : List.filterMap keptRow
      [(⟨some "shirt", none, none, none, some "bad", some 5, none⟩ : Review)]
      = [("bad", (5:ℚ))] := by
    rw [List.filterMap]
    simp [keptRow]
  have hsent : analyze_sentiment (fun _ => -1) "bad" = "Negative" := by
    rw [analyze_sentiment]
    norm_num
  have hmap : (List.map (fun p => analyze_sentiment (fun _ => (-1:ℚ)) p.1)
      [("bad", (5:ℚ))]) = ["Negative"] := by
    rw [List.map_cons, List.map_nil, hsent]
  have hneg : (summarize_reviews (fun _ => -1)
      [⟨some "shirt", none, none, none, some "bad", some 5, none⟩]).negative_pct
      = 100 := by
    show (sentiment_percentages ((List.filterMap keptRow
      [(⟨some "shirt", none, none, none, some "bad", some 5, none⟩ : Review)]).map
        (fun p => analyze_sentiment (fun _ => (-1:ℚ)) p.1))).2.1 = 100
    rw [hrow, hmap, sentiment_percentages]
    have h1 : (["Negative"].countP (· = "Positive")) = 0 := by decide
    have h2 : (["Negative"].countP (· = "Negative")) = 1 := by decide
    have h3 : (["Negative"].countP (· = "Neutral")) = 0 := by decide
    have h4 : (["Negative"] : List String).length = 1 := by decide
    simp only [h1, h2, h3, h4]
    norm_num [round2, rhe, Int.fract]
  have havg : (summarize_reviews (fun _ => -1)
      [⟨some "shirt", none, none, none, some "bad", some 5, none⟩]).average_rating
      = 5 := by
    show (if (List.filterMap keptRow
      [(⟨some "shirt", none, none, none, some "bad", some 5, none⟩ : Review)]).length = 0
      then (0:ℚ)
      else round2 (((List.filterMap keptRow
        [(⟨some "shirt", none, none, none, some "bad", some 5, none⟩ : Review)]).map
          Prod.snd).sum
        / ((List.filterMap keptRow
        [(⟨some "shirt", none, none, none, some "bad", some 5, none⟩ : Review)]).length))) = 5
    rw [hrow]
    simp only [List.length_cons, List.length_nil, List.map_cons, List.map_nil,
      List.sum_cons, List.sum_nil]
    norm_num [round2, rhe, Int.fract]
  have hc : (summarize_reviews (fun _ => -1)
      [⟨some "shirt", none, none, none, some "bad", some 5, none⟩]).negative_pct
      ≥ (9:ℚ)/10 * 100 := by
    rw [hneg]
    norm_num
  refine ⟨?_, havg, hneg, ?_, by norm_num⟩
  · rw [at_risk_map_fst, List.filter_cons, if_pos (decide_eq_true hc),
      List.filter_nil, List.map_cons, List.map_nil]
  · rw [weighted_risk_score]
    norm_num [round2, rhe, Int.fract]

/-!
## Claim C2 — window fallbacks and insufficient-data results
-/

/-- C2 (amended): in `/ratings/trends` there is NO fallback — a product whose
recent or previous window is empty yields the insufficient-data entry
directly; in `/ratings/alerts` the `[-5:]`/`[:5]` fallbacks (in input order,
not chronological order) apply, and because every analyzed product has at
least one cleaned review, both sides are always non-empty after fallback —
the silent `continue` branch is unreachable and no insufficient-data entry
exists in alerts. -/
theorem trends_alerts_window_policy (cutoff : Int) :
    (∀ prs : List TReview,
      trend_for_product cutoff prs = .insufficient_data ↔
        ((prs.filter (fun r => cutoff ≤ r.dt)).isEmpty = true ∨
         (prs.filter (fun r => r.dt < cutoff)).isEmpty = true)) ∧
    (∀ aprs : List (Int × Review), aprs ≠ [] →
      alerts_windows cutoff aprs ≠ none) := by
  constructor
  · intro prs
    simp only [trend_for_product]
    split_ifs with h
    · simpa using h
    · constructor
      · intro hcon
        exact absurd hcon (by simp)
      · intro hcon
        exact absurd hcon h
  · intro aprs hne
    have hlen : 0 < aprs.length := List.length_pos.mpr hne
    have hdrop : ¬ (aprs.drop (aprs.length - 5)).isEmpty = true := by
      intro hc
      have hL := congrArg List.length (List.isEmpty_iff.mp hc)
      rw [List.length_drop] at hL
      simp only [List.length_nil] at hL
      omega
    have htake : ¬ (aprs.take 5).isEmpty = true := by
      intro hc
      have hL := congrArg List.length (List.isEmpty_iff.mp hc)
      rw [List.length_take] at hL
      simp only [List.length_nil] at hL
      rcases Nat.min_eq_zero_iff.mp hL with h5 | h0
      · exact absurd h5 (by omega)
      · omega
    simp only [alerts_windows]
    by_cases h1 : (aprs.filter (fun r => cutoff ≤ r.1)).isEmpty
    · by_cases h2 : (aprs.filter (fun r => r.1 < cutoff)).isEmpty
      · rw [if_pos h1, if_pos h2, if_neg]
        · simp
        · rintro (hc | hc)
          · exact hdrop hc
          · exact htake hc
      · rw [if_pos h1, if_neg h2, if_neg]
        · simp
        · rintro (hc | hc)
          · exact hdrop hc
          · exact h2 hc
    · by_cases h2 : (aprs.filter (fun r => r.1 < cutoff)).isEmpty
      · rw [if_neg h1, if_pos h2, if_neg]
        · simp
        · rintro (hc | hc)
          · exact h1 hc
          · exact htake hc
      · rw [if_neg h1, if_neg h2, if_neg]
        · simp
        · rintro (hc | hc)
          · exact h1 hc
          · exact h2 hc

/-- C2 witness: a one-review product exercises both parts — the trends side
reports insufficient data exactly when a window is empty, and the alerts side
never drops a product with at least one cleaned review. -/
theorem trends_alerts_window_policy_witness :
    (trend_for_product 10 [⟨0, 4⟩] = .insufficient_data ↔
      (([(⟨0, 4⟩ : TReview)].filter (fun r => (10:Int) ≤ r.dt)).isEmpty = true ∨
       ([(⟨0, 4⟩ : TReview)].filter (fun r => r.dt < 10)).isEmpty = true)) ∧
    alerts_windows 0
      [(5, ⟨some "p", none, none, none, some "ok", some 5, some 5⟩)] ≠ none :=
  ⟨(trends_alerts_window_policy 10).1 [⟨0, 4⟩],
   (trends_alerts_window_policy 0).2
     [(5, ⟨some "p", none, none, none, some "ok", some 5, some 5⟩)]
     (by simp)⟩

/-- C2 counterexample: a product with two reviews, both strictly before the
recent cutoff, has a non-empty review list; by the claim the recent side
should fall back to the last 5 reviews and a numeric trend result should be
produced — but `/ratings/trends` yields the insufficient-data entry (there is
no fallback in the trends path). -/
theorem trends_no_fallback_counterexample :
    trend_for_product 10 [⟨0, 4⟩, ⟨1, 5⟩] = .insufficient_data ∧
    ([(⟨0, 4⟩ : TReview), ⟨1, 5⟩] : List TReview) ≠ [] := by
  constructor
  · simp only [trend_for_product]
    rw [if_pos]
    left
    decide
  · simp

/-!
## Claim C7 — cache refresh failure policy
-/

/-- C7 (amended): when a refresh is triggered (here: TTL expired) a fetch
error PROPAGATES to the caller even though a previously-populated entry
exists — `get_reviews_cached` has no handler, so the last valid entry is
never served on a failed refresh; cached data is returned only when no
refresh is needed. -/
theorem cache_fetch_error_propagates (e : String) (now : ℚ) (st : CacheState)
    (hpop : st.reviews ≠ []) (hexp : now - st.last_updated > REVIEW_CACHE_TTL) :
    get_reviews_cached (.error e) now st = .error e ∧
    (¬(st.reviews = [] ∨ now - st.last_updated > REVIEW_CACHE_TTL) →
      ∀ f : Except String (List Review), get_reviews_cached f now st
        = .ok (st, st.reviews)) := by
  constructor
  · rw [get_reviews_cached, if_pos (Or.inr hexp)]
  · intro hno
    exact absurd (Or.inr hexp) hno

/-- C7 witness: a populated, expired cache with a failing fetch. -/
theorem cache_fetch_error_propagates_witness :
    get_reviews_cached (.error "boom") 1000
      ⟨[⟨some "p", none, none, none, some "ok", some 5, none⟩], 0⟩
      = .error "boom" :=
  (cache_fetch_error_propagates "boom" 1000
    ⟨[⟨some "p", none, none, none, some "ok", some 5, none⟩], 0⟩
    (by simp) (by norm_num [REVIEW_CACHE_TTL])).1

/-- C7 counterexample: the cache holds a previously-populated valid entry
(`reviews ≠ []`), the TTL has expired, and the upstream fetch fails — the
claim says the last valid entry is returned and the error is not propagated,
but the code surfaces the error. -/
theorem cache_stale_serving_counterexample :
    get_reviews_cached (.error "connection refused") 400
      ⟨[⟨some "p", none, none, none, some "ok", some 5, none⟩], 0⟩
      = .error "connection refused" ∧
    ([(⟨some "p", none, none, none, some "ok", some 5, none⟩ : Review)] : List Review)
      ≠ [] := by
  constructor
  · rw [get_reviews_cached, if_pos]
    right
    norm_num [REVIEW_CACHE_TTL]
  · simp

/-!
## Claim C8 — the `"unknown_product"` sentinel
-/

/-- C8 (amended): for a record with no recognizable (truthy) product-handle
field, `resolve_product_handle` yields a FALSY value (`None`/`""`), not the
`"unknown_product"` sentinel; the sentinel is substituted only by the
actions-endpoint cleaning (and only from the `product_handle` field), where
the record is indeed kept; the alerts cleaning — which uses
`resolve_product_handle` — DROPS the record instead of counting it. -/
theorem unknown_handle_policy (r : Review) (now : Int)
    (h1 : strTruthy r.product_handle = false)
    (h2 : strTruthy r.handle = false)
    (h3 : strTruthy r.product_nested_handle = false)
    (h4 : strTruthy r.product_title = false) :
    strTruthy (resolve_product_handle r) = false ∧
    (actions_clean now r).product_handle = "unknown_product" ∧
    alerts_clean [r] = [] := by
  have hres : strTruthy (resolve_product_handle r) = false := by
    rw [resolve_product_handle, pyOrStr, pyOrStr, pyOrStr, h1, h2, h3]
    simpa using h4
  refine ⟨hres, ?_, ?_⟩
  · show (match r.product_handle with
      | some s => if s = "" then "unknown_product" else s
      | none => "unknown_product") = "unknown_product"
    rcases hph : r.product_handle with _ | s
    · rfl
    · have hs : s = "" := by
        rw [hph] at h1
        simpa [strTruthy] using h1
      rw [hs]
      simp
  · rcases hct : r.created_at with _ | dt
    · simp [alerts_clean, hct]
    · simp [alerts_clean, hct, hres]

/-- C8 witness: a concrete record with body, rating and timestamp but no
handle-bearing field. -/
theorem unknown_handle_policy_witness :
    strTruthy (resolve_product_handle
      ⟨none, none, none, none, some "ok", some 5, some 0⟩) = false ∧
    (actions_clean 7
      ⟨none, none, none, none, some "ok", some 5, some 0⟩).product_handle
      = "unknown_product" ∧
    alerts_clean [⟨none, none, none, none, some "ok", some 5, some 0⟩] = [] :=
  unknown_handle_policy ⟨none, none, none, none, some "ok", some 5, some 0⟩ 7
    rfl rfl rfl rfl

/-- C8 counterexample: normalization does NOT resolve a handle-less record to
the sentinel (`resolve_product_handle` returns `none`), and the alerts
aggregation drops such a record entirely instead of counting it under a
sentinel bucket. -/
theorem unknown_handle_counterexample :
    resolve_product_handle ⟨none, none, none, none, some "ok", some 5, some 0⟩
      = none ∧
    resolve_product_handle ⟨none, none, none, none, some "ok", some 5, some 0⟩
      ≠ some "unknown_product" ∧
    alerts_clean [⟨none, none, none, none, some "ok", some 5, some 0⟩] = [] := by
  refine ⟨rfl, by simp [resolve_product_handle, pyOrStr, strTruthy], ?_⟩
  simp [alerts_clean, resolve_product_handle, pyOrStr, strTruthy]

/-!
## Claim C5 — theme extraction: counts, ordering, permutation behaviour
-/

/-- Per-review contribution to theme `t` over the whole vocabulary. -/
def hitN (t : String) (kmap : List (String × List String)) (r : Review) : ℕ :=
  (kmap.map (fun p => if p.1 = t then (if themeHit p.2 r then 1 else 0) else 0)).sum

theorem tallyCount_bumpTheme (l : List (String × ℕ)) (t t' : String) :
    tallyCount (bumpTheme l t) t'
      = tallyCount l t' + (if t = t' then 1 else 0) := by
  induction l with
  | nil =>
    by_cases h : t = t'
    · simp [bumpTheme, tallyCount, h]
    · simp [bumpTheme, tallyCount, h, Ne.symm h]
  | cons a l ih =>
    rcases a with ⟨a1, n⟩
    by_cases h1 : a1 = t
    · rw [bumpTheme, if_pos h1]
      by_cases h2 : a1 = t'
      · have ht : t = t' := h1 ▸ h2
        simp [tallyCount, h2, ht]
        omega
      · have ht : ¬ t = t' := fun hc => h2 (h1.trans hc)
        simp [tallyCount, h2, ht]
    · rw [bumpTheme, if_neg h1]
      by_cases h2 : a1 = t'
      · simp only [tallyCount, List.map_cons, List.sum_cons, if_pos h2] at *
        omega
      · simp only [tallyCount, List.map_cons, List.sum_cons, if_neg h2] at *
        omega

theorem tallyCount_visitReview (kmap : List (String × List String))
    (acc : List (String × ℕ)) (r : Review) (t : String) :
    tallyCount (visitReview kmap acc r) t = tallyCount acc t + hitN t kmap r := by
  induction kmap generalizing acc with
  | nil => simp [visitReview, hitN]
  | cons p rest ih =>
    show tallyCount (visitReview rest
      (if themeHit p.2 r then bumpTheme acc p.1 else acc) r) t = _
    rw [ih]
    have hh : hitN t (p :: rest) r
        = (if p.1 = t then (if themeHit p.2 r then 1 else 0) else 0)
          + hitN t rest r := by
      rw [hitN, List.map_cons, List.sum_cons, hitN]
    rw [hh]
    by_cases hhit : themeHit p.2 r = true
    · rw [if_pos hhit, tallyCount_bumpTheme]
      by_cases hpt : p.1 = t
      · rw [if_pos hpt, if_pos hpt, if_pos hhit]
        omega
      · rw [if_neg hpt, if_neg hpt]
        omega
    · rw [if_neg hhit]
      by_cases hpt : p.1 = t
      · rw [if_pos hpt, if_neg hhit]
        omega
      · rw [if_neg hpt]
        omega

theorem tallyCount_themeTally (rs : List Review)
    (kmap : List (String × List String)) (t : String) :
    tallyCount (themeTally rs kmap) t = (rs.map (hitN t kmap)).sum := by
  suffices h : ∀ acc, tallyCount (rs.foldl (visitReview kmap) acc) t
      = tallyCount acc t + (rs.map (hitN t kmap)).sum by
    have := h []
    simpa [themeTally, tallyCount] using this
  induction rs with
  | nil => simp
  | cons r rest ih =>
    intro acc
    rw [List.foldl_cons, ih, tallyCount_visitReview, List.map_cons, List.sum_cons]
    omega

theorem hitN_not_mem (t : String) (kmap : List (String × List String))
    (r : Review) (h : t ∉ kmap.map Prod.fst) : hitN t kmap r = 0 := by
  induction kmap with
  | nil => rfl
  | cons p rest ih =>
    rw [List.map_cons] at h
    rw [hitN, List.map_cons, List.sum_cons]
    have hpt : ¬ p.1 = t := fun hc => h (hc ▸ List.mem_cons_self _ _)
    rw [if_neg hpt]
    have := ih (fun hc => h (List.mem_cons_of_mem _ hc))
    rw [hitN] at this
    omega

theorem hitN_of_mem (t : String) (kws : List String)
    (kmap : List (String × List String)) (r : Review)
    (hnd : (kmap.map Prod.fst).Nodup) (hmem : (t, kws) ∈ kmap) :
    hitN t kmap r = if themeHit kws r then 1 else 0 := by
  induction kmap with
  | nil => cases hmem
  | cons p rest ih =>
    rw [List.map_cons, List.nodup_cons] at hnd
    rw [hitN, List.map_cons, List.sum_cons]
    rcases List.mem_cons.mp hmem with he | hm
    · rw [← he]
      have hsel : ((t, kws).1 = t) := rfl
      rw [if_pos hsel]
      have h22 : ((t, kws).2 = kws) := rfl
      rw [h22]
      have hnot : t ∉ rest.map Prod.fst := by
        intro hc
        apply hnd.1
        rw [← he]
        exact hc
      have h0 := hitN_not_mem t rest r hnot
      rw [hitN] at h0
      omega
    · have hpt : ¬ p.1 = t := by
        intro hc
        apply hnd.1
        rw [hc]
        exact List.mem_map.mpr ⟨(t, kws), hm, rfl⟩
      rw [if_neg hpt]
      have := ih hnd.2 hm
      rw [hitN] at this
      omega

theorem sum_map_ite_countP (rs : List Review) (kws : List String) :
    (rs.map (fun r => if themeHit kws r then 1 else 0)).sum
      = rs.countP (themeHit kws) := by
  induction rs with
  | nil => rfl
  | cons r rest ih =>
    rw [List.map_cons, List.sum_cons, List.countP_cons, ih]
    by_cases h : themeHit kws r = true
    · rw [if_pos h]
      omega
    · rw [if_neg h]
      omega

theorem tallyCount_perm {l l' : List (String × ℕ)} (h : l.Perm l') (t : String) :
    tallyCount l t = tallyCount l' t := by
  show (l.map (fun p => if p.1 = t then p.2 else 0)).sum
    = (l'.map (fun p => if p.1 = t then p.2 else 0)).sum
  exact (h.map _).sum_eq

/-- C5 (amended): for a vocabulary with distinct theme names, the count
reported for a theme equals the number of reviews hitting any of its keywords
(at most once per review per theme), and — as a count — is invariant under
permutation of the review list; the output is sorted descending by count.
But ties are broken by first-hit insertion order of the tally dict, which
depends on the review order, so the output SEQUENCE is not permutation
invariant (see the counterexample). -/
theorem extract_themes_counts_and_order (rs : List Review)
    (kmap : List (String × List String)) (hnd : (kmap.map Prod.fst).Nodup) :
    (∀ t kws, (t, kws) ∈ kmap →
      tallyCount (extract_themes rs kmap) t = rs.countP (themeHit kws)) ∧
    (extract_themes rs kmap).Pairwise (fun a b => b.2 ≤ a.2) ∧
    (∀ rs' : List Review, rs.Perm rs' → ∀ t,
      tallyCount (extract_themes rs kmap) t
        = tallyCount (extract_themes rs' kmap) t) := by
  have hcount : ∀ (l : List Review) (t : String) (kws : List String),
      (t, kws) ∈ kmap →
      tallyCount (extract_themes l kmap) t = l.countP (themeHit kws) := by
    intro l t kws hmem
    have hperm : (extract_themes l kmap).Perm (themeTally l kmap) :=
      List.perm_insertionSort _ _
    rw [tallyCount_perm hperm, tallyCount_themeTally]
    have : ∀ r ∈ l, hitN t kmap r = if themeHit kws r then 1 else 0 :=
      fun r _ => hitN_of_mem t kws kmap r hnd hmem
    rw [List.map_congr_left this, sum_map_ite_countP]
  refine ⟨hcount rs, ?_, ?_⟩
  · haveI htot : IsTotal (String × ℕ) (fun a b => b.2 ≤ a.2) :=
      ⟨fun a b => Nat.le_total b.2 a.2⟩
    haveI htr : IsTrans (String × ℕ) (fun a b => b.2 ≤ a.2) :=
      ⟨fun _ _ _ hab hbc => le_trans hbc hab⟩
    exact List.sorted_insertionSort _ (themeTally rs kmap)
  · intro rs' hp t
    by_cases hk : t ∈ kmap.map Prod.fst
    · rcases List.mem_map.mp hk with ⟨pr, hpr, hfst⟩
      have h1 := hcount rs t pr.2 (by rw [← hfst]; exact hpr)
      have h2 := hcount rs' t pr.2 (by rw [← hfst]; exact hpr)
      rw [h1, h2]
      exact hp.countP_eq _
    · have hperm1 : (extract_themes rs kmap).Perm (themeTally rs kmap) :=
        List.perm_insertionSort _ _
      have hperm2 : (extract_themes rs' kmap).Perm (themeTally rs' kmap) :=
        List.perm_insertionSort _ _
      have h1 : tallyCount (extract_themes rs kmap) t = 0 := by
        rw [tallyCount_perm hperm1, tallyCount_themeTally]
        have : ∀ r ∈ rs, hitN t kmap r = 0 := fun r _ => hitN_not_mem t kmap r hk
        rw [List.map_congr_left this]
        simp
      have h2 : tallyCount (extract_themes rs' kmap) t = 0 := by
        rw [tallyCount_perm hperm2, tallyCount_themeTally]
        have : ∀ r ∈ rs', hitN t kmap r = 0 := fun r _ => hitN_not_mem t kmap r hk
        rw [List.map_congr_left this]
        simp
      rw [h1, h2]

/-- C5 witness: a one-review list against the real complaint vocabulary. -/
theorem extract_themes_counts_and_order_witness :
    tallyCount (extract_themes
        [⟨some "p", none, none, none, some "late", none, none⟩]
        COMPLAINT_KEYWORDS) "delivery"
      = [(⟨some "p", none, none, none, some "late", none, none⟩ : Review)].countP
          (themeHit ["late", "delay", "shipping"]) ∧
    (extract_themes [⟨some "p", none, none, none, some "late", none, none⟩]
        COMPLAINT_KEYWORDS).Pairwise (fun a b => b.2 ≤ a.2) :=
  ⟨(extract_themes_counts_and_order
      [⟨some "p", none, none, none, some "late", none, none⟩]
      COMPLAINT_KEYWORDS (by decide)).1 "delivery" ["late", "delay", "shipping"]
      (by decide),
   (extract_themes_counts_and_order
      [⟨some "p", none, none, none, some "late", none, none⟩]
      COMPLAINT_KEYWORDS (by decide)).2.1⟩

/-- C5 counterexample: two reviews hitting different themes, once in each
order.  The theme counts agree, but the output sequences differ — `"late"`
first inserts `delivery` into the tally, `"broken"` first inserts `quality` —
so ties are broken by review-dependent insertion order, NOT by
vocabulary-declaration order (which would put `quality` first in both), and
the sequence is not invariant under permutation of the reviews. -/
theorem extract_themes_order_counterexample :
    extract_themes
        [⟨some "p", none, none, none, some "late", none, none⟩,
         ⟨some "p", none, none, none, some "broken", none, none⟩]
        COMPLAINT_KEYWORDS
      = [("delivery", 1), ("quality", 1)] ∧
    extract_themes
        [⟨some "p", none, none, none, some "broken", none, none⟩,
         ⟨some "p", none, none, none, some "late", none, none⟩]
        COMPLAINT_KEYWORDS
      = [("quality", 1), ("delivery", 1)] ∧
    List.Perm
      [(⟨some "p", none, none, none, some "late", none, none⟩ : Review),
       ⟨some "p", none, none, none, some "broken", none, none⟩]
      [⟨some "p", none, none, none, some "broken", none, none⟩,
       ⟨some "p", none, none, none, some "late", none, none⟩] :=
  ⟨by decide, by decide, List.Perm.swap _ _ _⟩

/-!
## Claim C10 — the reassigned `priority` loop variable
-/

theorem actions_loop_fst_indep (polarity_of : String → ℚ) (cutoff : Int)
    (cleaned : List CReview) (handles : List String) (acc : List ActionEntry)
    (p q : Option String) :
    (handles.foldl (actions_step polarity_of cutoff cleaned) (acc, p)).1
      = (handles.foldl (actions_step polarity_of cutoff cleaned) (acc, q)).1 := by
  induction handles generalizing acc p q with
  | nil => rfl
  | cons h t ih =>
    rw [List.foldl_cons, List.foldl_cons]
    by_cases hre : (actions_recent cutoff cleaned h).isEmpty = true
    · have e1 : actions_step polarity_of cutoff cleaned (acc, p) h = (acc, p) := by
        rw [actions_step, if_pos hre]
      have e2 : actions_step polarity_of cutoff cleaned (acc, q) h = (acc, q) := by
        rw [actions_step, if_pos hre]
      rw [e1, e2]
      exact ih acc p q
    · have e1 : actions_step polarity_of cutoff cleaned (acc, p) h
        = actions_step polarity_of cutoff cleaned (acc, q) h := by
        rw [actions_step, actions_step, if_neg hre, if_neg hre]
      rw [e1]

theorem actions_loop_snd_last (polarity_of : String → ℚ) (cutoff : Int)
    (cleaned : List CReview) (handles : List String)
    (hall : ∀ h ∈ handles, ¬(actions_recent cutoff cleaned h).isEmpty = true)
    (hne : handles ≠ []) (acc : List ActionEntry) (p : Option String) :
    (handles.foldl (actions_step polarity_of cutoff cleaned) (acc, p)).2
      = computed_priority polarity_of cutoff cleaned (handles.getLast hne) := by
  induction handles generalizing acc p with
  | nil => exact absurd rfl hne
  | cons h t ih =>
    have hreh := hall h (List.mem_cons_self h t)
    rcases t with _ | ⟨h2, t2⟩
    · show (actions_step polarity_of cutoff cleaned (acc, p) h).2 = _
      have hl : ([h].getLast hne) = h := rfl
      rw [hl, actions_step, if_neg hreh, computed_priority, if_neg hreh]
    · have hne2 : (h2 :: t2) ≠ [] := by simp
      have hall2 : ∀ x ∈ h2 :: t2,
          ¬(actions_recent cutoff cleaned x).isEmpty = true :=
        fun x hx => hall x (List.mem_cons_of_mem h hx)
      rw [List.foldl_cons]
      have hlast : (h :: h2 :: t2).getLast hne = (h2 :: t2).getLast hne2 :=
        List.getLast_cons hne2
      rw [hlast]
      rcases hstep : actions_step polarity_of cutoff cleaned (acc, p) h
        with ⟨acc', p'⟩
      exact ih hall2 hne2 acc' p'

theorem computed_priority_values (polarity_of : String → ℚ) (cutoff : Int)
    (cleaned : List CReview) (handle : String) (p : String)
    (h : computed_priority polarity_of cutoff cleaned handle = some p) :
    p = "high" ∨ p = "medium" ∨ p = "low" := by
  rw [computed_priority] at h
  by_cases hre : (actions_recent cutoff cleaned handle).isEmpty = true
  · rw [if_pos hre] at h
    cases h
  · rw [if_neg hre] at h
    have hp := Option.some_injective _ h
    rw [action_priority] at hp
    split_ifs at hp
    · left
      exact hp.symm
    · right; left
      exact hp.symm
    · right; right
      exact hp.symm

/-- C10 (confirmed): whenever at least one product entry is computed (every
iterated handle has a non-empty recent window), the final output of
`/ratings/actions` is independent of the caller's `priority` parameter, and
equals the loop's entry list filtered to the priority computed for the LAST
product iterated.  Moreover, on a concrete input, a caller requesting
`priority="high"` receives exactly one entry, of priority `"low"`. -/
theorem actions_priority_filter_uses_loop_variable (polarity_of : String → ℚ)
    (cutoff : Int) (cleaned : List CReview) (handles : List String)
    (p0 p0' : Option String) (hne : handles ≠ [])
    (hall : ∀ h ∈ handles, ¬(actions_recent cutoff cleaned h).isEmpty = true) :
    (actions_results polarity_of cutoff cleaned handles p0
      = actions_results polarity_of cutoff cleaned handles p0') ∧
    (∃ plast, computed_priority polarity_of cutoff cleaned (handles.getLast hne)
        = some plast ∧
      actions_results polarity_of cutoff cleaned handles p0
        = (handles.foldl (actions_step polarity_of cutoff cleaned)
            ([], p0)).1.filter (fun e => e.priority = plast)) ∧
    actions_results (fun _ => 1) 0 [⟨5, "p1", 5, "good"⟩] ["p1"] (some "high")
      = [⟨"p1", 5, 0, "low", "No immediate action needed"⟩] := by
  obtain ⟨plast, hpl⟩ : ∃ pl, computed_priority polarity_of cutoff cleaned
      (handles.getLast hne) = some pl := by
    have hre := hall (handles.getLast hne) (List.getLast_mem hne)
    rw [computed_priority, if_neg hre]
    exact ⟨_, rfl⟩
  have hvals := computed_priority_values polarity_of cutoff cleaned
    (handles.getLast hne) plast hpl
  have hlow : strLower plast = plast := by
    rcases hvals with h | h | h <;> rw [h] <;> decide
  have hnee : ¬ plast = "" := by
    rcases hvals with h | h | h <;> rw [h] <;> decide
  have hsnd : ∀ q : Option String,
      (handles.foldl (actions_step polarity_of cutoff cleaned) ([], q)).2
        = some plast := by
    intro q
    rw [actions_loop_snd_last polarity_of cutoff cleaned handles hall hne [] q]
    exact hpl
  have heval : ∀ q : Option String,
      actions_results polarity_of cutoff cleaned handles q
        = (handles.foldl (actions_step polarity_of cutoff cleaned)
            ([], q)).1.filter (fun e => e.priority = plast) := by
    intro q
    rw [actions_results]
    rcases hfold : handles.foldl (actions_step polarity_of cutoff cleaned)
      ([], q) with ⟨entries, pr⟩
    have : pr = some plast := by
      have := hsnd q
      rw [hfold] at this
      exact this
    rw [this]
    show (if plast = "" then entries
      else entries.filter (fun e => e.priority = strLower plast)) = _
    rw [if_neg hnee, hlow]
  refine ⟨?_, ⟨plast, hpl, heval p0⟩, ?_⟩
  · rw [heval p0, heval p0']
    rw [actions_loop_fst_indep polarity_of cutoff cleaned handles [] p0 p0']
  · have hrec : actions_recent 0 [⟨5, "p1", (5:ℚ), "good"⟩] "p1"
        = [⟨5, "p1", (5:ℚ), "good"⟩] := by
      rw [actions_recent]
      simp
    have hrow : List.filterMap keptRow
        [(⟨some "p1", none, none, none, some "good", some 5, some 5⟩ : Review)]
        = [("good", (5:ℚ))] := by
      rw [List.filterMap]
      simp [keptRow]
    have hsent : analyze_sentiment (fun _ => 1) "good" = "Positive" := by
      rw [analyze_sentiment]
      norm_num
    have hmap : (List.map (fun p => analyze_sentiment (fun _ => (1:ℚ)) p.1)
        [("good", (5:ℚ))]) = ["Positive"] := by
      rw [List.map_cons, List.map_nil, hsent]
    have hneg : (summarize_reviews (fun _ => 1)
        [⟨some "p1", none, none, none, some "good", some 5, some 5⟩]).negative_pct
        = 0 := by
      show (sentiment_percentages ((List.filterMap keptRow
        [(⟨some "p1", none, none, none, some "good", some 5, some 5⟩ : Review)]).map
          (fun p => analyze_sentiment (fun _ => (1:ℚ)) p.1))).2.1 = 0
      rw [hrow, hmap, sentiment_percentages]
      have h1 : (["Positive"].countP (· = "Positive")) = 1 := by decide
      have h2 : (["Positive"].countP (· = "Negative")) = 0 := by decide
      have h3 : (["Positive"].countP (· = "Neutral")) = 0 := by decide
      have h4 : (["Positive"] : List String).length = 1 := by decide
      simp only [h1, h2, h3, h4]
      norm_num [round2, rhe, Int.fract]
    have havg : (summarize_reviews (fun _ => 1)
        [⟨some "p1", none, none, none, some "good", some 5, some 5⟩]).average_rating
        = 5 := by
      show (if (List.filterMap keptRow
        [(⟨some "p1", none, none, none, some "good", some 5, some 5⟩ : Review)]).length = 0
        then (0:ℚ)
        else round2 (((List.filterMap keptRow
          [(⟨some "p1", none, none, none, some "good", some 5, some 5⟩ : Review)]).map
            Prod.snd).sum
          / ((List.filterMap keptRow
          [(⟨some "p1", none, none, none, some "good", some 5, some 5⟩ : Review)]).length))) = 5
      rw [hrow]
      simp only [List.length_cons, List.length_nil, List.map_cons, List.map_nil,
        List.sum_cons, List.sum_nil]
      norm_num [round2, rhe, Int.fract]
    have hap : action_priority (summarize_reviews (fun _ => 1)
        [⟨some "p1", none, none, none, some "good", some 5, some 5⟩])
        = ("low", "No immediate action needed") := by
      rw [action_priority, havg, hneg]
      rw [if_neg (by norm_num), if_neg (by norm_num)]
    have hmaprc : List.map review_of_c [(⟨5, "p1", (5:ℚ), "good"⟩ : CReview)]
        = [⟨some "p1", none, none, none, some "good", some 5, some 5⟩] := rfl
    have hstep : actions_step (fun _ => 1) 0 [⟨5, "p1", (5:ℚ), "good"⟩]
        ([], some "high") "p1"
        = ([⟨"p1", 5, 0, "low", "No immediate action needed"⟩], some "low") := by
      simp only [actions_step, hrec, hmaprc]
      rw [if_neg (by simp)]
      rw [hap, havg, hneg]
      rfl
    simp only [actions_results, List.foldl_cons, List.foldl_nil, hstep]
    simp [strLower]

/-- C10 witness: one product of priority `"low"`, caller requests `"high"`,
and receives exactly the `"low"` entry; the parameter value is irrelevant. -/
theorem actions_priority_filter_witness :
    (actions_results (fun _ => 1) 0 [⟨5, "p1", (5:ℚ), "good"⟩] ["p1"] (some "high")
      = actions_results (fun _ => 1) 0 [⟨5, "p1", (5:ℚ), "good"⟩] ["p1"] none) ∧
    (∃ plast, computed_priority (fun _ => 1) 0 [⟨5, "p1", (5:ℚ), "good"⟩]
        (["p1"].getLast (by simp)) = some plast ∧
      actions_results (fun _ => 1) 0 [⟨5, "p1", (5:ℚ), "good"⟩] ["p1"] (some "high")
        = (List.foldl (actions_step (fun _ => 1) 0 [⟨5, "p1", (5:ℚ), "good"⟩])
            ([], some "high") ["p1"]).1.filter (fun e => e.priority = plast)) ∧
    actions_results (fun _ => 1) 0 [⟨5, "p1", (5:ℚ), "good"⟩] ["p1"] (some "high")
      = [⟨"p1", 5, 0, "low", "No immediate action needed"⟩] :=
  actions_priority_filter_uses_loop_variable (fun _ => 1) 0
    [⟨5, "p1", (5:ℚ), "good"⟩] ["p1"] (some "high") none (by simp) (by decide)
